import Mathlib

/-!
# Verification of the Git_Guard front-end chat controller

Shallow embedding of the repository's chat page
(`src/frontend/src/pages/Chat/ChatPage.tsx`), its answer-service client
(`src/frontend/src/services/chat.ts`) and the git pre-commit hook
(`src/git_hook/pre-commit.bash`), together with proofs of the behavioural
claims stated about them.

Modelling conventions:
* JavaScript values flowing out of `JSON.parse` / axios response bodies are
  modelled by a small JSON value type `Json`.
* `localStorage` is modelled as a partial map from string keys to the values
  the application stores there.
* `uuidv4()` and `Date.now()` are fresh-identifier sources; they are modelled
  by a counter threaded through the state, stamping distinct prefixed names.
* String `.length` / `.slice` are modelled by Lean's `String.length` /
  `String.take`; the strings the claims exercise are plain ASCII, where the
  two agree with JavaScript's UTF-16 based operations.
-/

/-- A JSON value, as produced by `JSON.parse` or received as an axios
response body. -/
inductive Json where
  | null : Json
  | bool (b : Bool) : Json
  | num (n : Int) : Json
  | str (s : String) : Json
  | arr (elems : List Json) : Json
  | obj (fields : List (String × Json)) : Json

/-- Field access `v.k` on a JavaScript value: `none` models `undefined`
(absent field or non-object receiver). -/
def jsonGet (v : Json) (k : String) : Option Json :=
  match v with
  | .obj fields => (fields.find? (fun f => f.1 == k)).map (·.2)
  | _ => none

/-- JavaScript truthiness of a value (`null`, `false`, `0` and `""` are
falsy; arrays and objects are always truthy). -/
def jsTruthy (v : Json) : Bool :=
  match v with
  | .null => false
  | .bool b => b
  | .num n => n != 0
  | .str s => s != ""
  | .arr _ => true
  | .obj _ => true

/-- The JavaScript `a || b` operator on values. -/
def jsOr (a b : Json) : Json :=
  if jsTruthy a then a else b

/-- The JavaScript `a ?? b` operator applied to a possibly-absent field
value: `undefined` (`none`) and `null` fall through to the default. -/
def jsCoalesce (a : Option Json) (b : Json) : Json :=
  match a with
  | none => b
  | some .null => b
  | some v => v

/-- `Array.isArray(v) ? v : []`, returning the element list. -/
def jsArrayOrEmpty (v : Option Json) : List Json :=
  match v with
  | some (.arr elems) => elems
  | _ => []

/-- Return shape of `askQuestion` in `src/services/chat.ts`: the backend's
`answer` and `context` after normalisation. -/
structure BackendResponse where
  answer : Json
  context : List Json

/-- `askQuestion` from `src/services/chat.ts`, applied to the response body
`resp.data` of a completed 2xx POST to `/api/user/ask`:
`const data = resp.data || {}` then
`{ answer: data.answer ?? "", context: Array.isArray(data.context) ? data.context : [] }`.
(Transport failures and non-2xx statuses are raised by axios before this
code runs and are modelled as the failure branch of `send`.) -/
def askQuestion (respData : Json) : BackendResponse :=
  let data := jsOr respData (.obj [])
  { answer := jsCoalesce (jsonGet data "answer") (.str "")
    context := jsArrayOrEmpty (jsonGet data "context") }

/-- A reference case as built by `ChatPage.send` from one raw context item:
`{ id: index + 1, question: c.ask ?? "", answer: c.answer ?? "", department: c.department ?? "" }`. -/
structure ReferenceCase where
  id : Nat
  question : Json
  answer : Json
  department : Json

/-- `rawContext.map((c, index) => ({...}))` from `ChatPage.send`, carrying
the running index explicitly (`idx` is the 0-based position of the head). -/
def buildRefCases (idx : Nat) : List Json → List ReferenceCase
  | [] => []
  | c :: cs =>
      { id := idx + 1
        question := jsCoalesce (jsonGet c "ask") (.str "")
        answer := jsCoalesce (jsonGet c "answer") (.str "")
        department := jsCoalesce (jsonGet c "department") (.str "") }
      :: buildRefCases (idx + 1) cs

/-!
## Raw persisted strings and `JSON.parse`

The history-index read in the init effect of `ChatPage` is
`JSON.parse(localStorage.getItem("chat-history") || "[]")`. To reason about
malformed persisted data we classify a stored string by how `JSON.parse`
treats it; the empty string is kept separate because it is falsy in
JavaScript (so `|| "[]"` replaces it) yet rejected by `JSON.parse`.
-/

/-- A string held in `localStorage`, classified by its JSON status. -/
inductive RawStored where
  | json (v : Json) : RawStored
  | bad : RawStored
  | empty : RawStored

/-- `JSON.parse` on a stored string: returns the parsed value, or throws
(`Except.error`) on a string that is not valid JSON. The empty string is
not valid JSON. -/
def jsonParse (s : RawStored) : Except Unit Json :=
  match s with
  | .json v => .ok v
  | .bad => .error ()
  | .empty => .error ()

/-- `localStorage.getItem(k) || "[]"`: an absent key (`null`) or an empty
stored string is replaced by the literal `"[]"`, which parses to the empty
array. -/
def getItemOrBrackets (stored : Option RawStored) : RawStored :=
  match stored with
  | none => .json (.arr [])
  | some .empty => .json (.arr [])
  | some s => s

/-- The history-index load performed by the `ChatPage` init effect:
`JSON.parse(localStorage.getItem("chat-history") || "[]")`, given the raw
string currently stored under the `chat-history` key. -/
def loadHistoryIndex (stored : Option RawStored) : Except Unit Json :=
  jsonParse (getItemOrBrackets stored)

/-!
## The git pre-commit hook

`src/git_hook/pre-commit.bash` runs the analyzer script, branches on its
exit status only to choose which lines to print, and ends with `exit 0`.
The model returns the printed lines together with the hook's exit code.
-/

/-- The 56-character `=` rule the script prints around its banners. -/
def hookRule : String := String.mk (List.replicate 56 (Char.ofNat 61))

/-- The banner printed before the analyzer runs. -/
def hookHeader : List String :=
  ["", hookRule, "🤖 正在启动 AI 代码变更影响分析 (RAG + ZhipuAI)...", hookRule]

/-- The lines printed when the analyzer exits non-zero (the `exit 1` that
would block the commit is commented out in the script). -/
def hookFailureLines : List String :=
  ["",
   "❌ 分析脚本运行出错，或检测到严重风险。",
   "   (如果你想忽略此错误强制提交，请使用 git commit --no-verify)",
   hookRule]

/-- The lines printed when the analyzer exits zero. -/
def hookSuccessLines : List String :=
  ["", "✅ 分析完成。", hookRule]

/-- `src/git_hook/pre-commit.bash`, as a function of the analyzer script's
exit status: the printed output and the hook's own exit code. -/
def preCommitHook (analyzerExit : Nat) : List String × Nat :=
  let body := if analyzerExit ≠ 0 then hookFailureLines else hookSuccessLines
  (hookHeader ++ body, 0)

/-!
## The chat page state

`ChatPage.tsx` keeps five pieces of React state (`messages`, `history`,
`sessionId`, `isSending`, `isTyping`) next to the browser's `localStorage`.
The store only ever receives values the page itself writes
(`JSON.stringify` of a history array under `"chat-history"`, or of a
message array under `"session-" + id`), and `JSON.parse ∘ JSON.stringify`
is the identity, so the store is modelled as a map from keys to those two
typed values. `uuidv4()` / `Date.now()` are modelled by the `nextId`
counter.
-/

/-- A chat message (`Message` from `shared/MessageItem`): the `loading`
flag marks the placeholder awaiting a response, and `referenceCases` is
`none` when the field is `undefined`. -/
structure Message where
  id : String
  role : String
  text : String
  loading : Bool := false
  referenceCases : Option (List ReferenceCase) := none

/-- A history-index entry (`HistoryItem` in `ChatPage.tsx`). -/
structure HistoryItem where
  id : String
  title : String

/-- A value the chat page stores in `localStorage`: the stringified history
index or a stringified session transcript. -/
inductive StoredVal where
  | hist (items : List HistoryItem) : StoredVal
  | msgs (items : List Message) : StoredVal

/-- The `localStorage` contents, as a map from keys to stored values. -/
def Store : Type := String → Option StoredVal

/-- A store with no keys set. -/
def emptyStore : Store := fun _ => none

/-- `localStorage.setItem`. -/
def setItem (st : Store) (k : String) (v : StoredVal) : Store :=
  fun k' => if k' = k then some v else st k'

/-- `localStorage.removeItem`. -/
def removeItem (st : Store) (k : String) : Store :=
  fun k' => if k' = k then none else st k'

/-- The fixed key holding the history index. -/
def historyKey : String := "chat-history"

/-- The per-session transcript key `"session-" + id`. -/
def sessionKey (id : String) : String := "session-" ++ id

/-- The id produced by the `n`-th call to `uuidv4()`. -/
def mkUuid (n : Nat) : String := "uuid-" ++ toString n

/-- The placeholder id `"loading-" + Date.now()`, stamped from the same
freshness counter. -/
def mkLoadingId (n : Nat) : String := "loading-" ++ toString n

/-- The seeded assistant welcome message of `startNewSession`. -/
def welcomeMessage : Message :=
  { id := "welcome"
    role := "assistant"
    text := "欢迎使用 Medical RAG 医疗健康咨询助手。请用自然语言描述你的不适或疑问，例如“高血压能吃党参吗？”、“长期胃痛该挂什么科？”。" }

/-- The fixed user-facing failure string substituted on a failed request. -/
def failureText : String := "请求失败，请稍后再试。"

/-- The complete state of the chat page: the five React state cells, the
store, and the freshness counter backing `uuidv4()` / `Date.now()`. -/
structure AppState where
  messages : List Message
  history : List HistoryItem
  sessionId : String
  isSending : Bool
  isTyping : Bool
  store : Store
  nextId : Nat

/-- `messages.find(m => m.role === "user")`. -/
def firstUser (ms : List Message) : Option Message :=
  ms.find? (fun m => m.role == "user")

/-- The title derivation inside the history-title effect:
`firstUser.text.length > 12 ? firstUser.text.slice(0, 12) + "..." : firstUser.text`. -/
def deriveTitle (t : String) : String :=
  if t.length > 12 then t.take 12 ++ "..." else t

/-- The transcript-saving effect (`useEffect` over `[messages, sessionId]`):
`if (!sessionId) return; localStorage.setItem("session-" + sessionId, JSON.stringify(messages))`. -/
def saveEffect (s : AppState) : AppState :=
  if s.sessionId = "" then s
  else { s with store := setItem s.store (sessionKey s.sessionId) (.msgs s.messages) }

/-- The history-title effect (`useEffect` over `[messages, sessionId]`):
skips when there is no session or no user message; otherwise moves the
current session's entry, with its derived title, to the front of the index
and persists the index. -/
def titleEffect (s : AppState) : AppState :=
  if s.sessionId = "" then s
  else
    match firstUser s.messages with
    | none => s
    | some m =>
        let others := s.history.filter (fun h => h.id != s.sessionId)
        let updated := { id := s.sessionId, title := deriveTitle m.text } :: others
        { s with history := updated
                 store := setItem s.store historyKey (.hist updated) }

/-- Both effects, in their declaration order, as they run after any event
that changed `messages` or `sessionId`. -/
def runEffects (s : AppState) : AppState :=
  titleEffect (saveEffect s)

/-- `startNewSession`: fresh id, cleared flags, log reset to the seeded
welcome message; followed by the effects the state change triggers. -/
def startNewSession (s : AppState) : AppState :=
  runEffects
    { s with sessionId := mkUuid s.nextId
             nextId := s.nextId + 1
             isSending := false
             isTyping := false
             messages := [welcomeMessage] }

/-- The parsed transcript read by `loadHistory`:
`JSON.parse(localStorage.getItem("session-" + id) || "[]")`. An absent key
yields the empty array; on the states the page reaches, session keys only
ever hold stringified message arrays. -/
def getTranscript (st : Store) (id : String) : List Message :=
  match st (sessionKey id) with
  | some (.msgs l) => l
  | _ => []

/-- `loadHistory(id)`: a no-op when the stored transcript is absent or
empty (`if (!saved || saved.length === 0) return`); otherwise switches the
active session to `id`, clears both flags and replaces the log, followed by
the triggered effects. -/
def loadHistory (s : AppState) (id : String) : AppState :=
  let saved := getTranscript s.store id
  if saved.isEmpty then s
  else
    runEffects
      { s with sessionId := id
               isSending := false
               isTyping := false
               messages := saved }

/-- `deleteHistory(id)`: removes `id` from the index and its transcript
from the store; when the active session was deleted, falls back to loading
the most recent remaining entry, or to a new session if none remain. A
deletion of a non-active session changes neither `messages` nor
`sessionId`, so the effects do not re-run. -/
def deleteHistory (s : AppState) (id : String) : AppState :=
  let updated := s.history.filter (fun h => h.id != id)
  let s1 : AppState :=
    { s with history := updated
             store := removeItem (setItem s.store historyKey (.hist updated)) (sessionKey id) }
  if id = s.sessionId then
    match updated with
    | e :: _ => loadHistory s1 e.id
    | [] => startNewSession s1
  else s1

/-- The synchronous prefix of `send(text)`: the guard
`if (isSending || isTyping) return`, then the atomic append of the user
message and the loading placeholder, `setIsSending(true)`, and the effects
that flush while the request is awaited. The second component is the
question posted to `/api/user/ask` (`none` when the call was rejected and
no request is issued). -/
def sendStart (s : AppState) (text : String) : AppState × Option String :=
  if s.isSending || s.isTyping then (s, none)
  else
    let userMsg : Message := { id := mkUuid s.nextId, role := "user", text := text }
    let loadingMsg : Message :=
      { id := mkLoadingId (s.nextId + 1), role := "assistant", text := "", loading := true }
    (runEffects
       { s with messages := s.messages ++ [userMsg, loadingMsg]
                isSending := true
                nextId := s.nextId + 2 },
     some text)

/-- The success continuation of `send`: builds the reference cases from the
raw context list, replaces the loading placeholder in place (the
`referenceCases` field is set only when the list is non-empty:
`referenceCases.length ? referenceCases : undefined`), starts the typing
animation, and clears the in-flight flag in the `finally`. `answer` is the
resolved answer text and `loadingId` the placeholder id captured by the
closure. -/
def resolveSuccess (s : AppState) (loadingId : String) (answer : String)
    (rawContext : List Json) : AppState :=
  let referenceCases := buildRefCases 0 rawContext
  let finalMsg : Message :=
    { id := mkUuid s.nextId
      role := "assistant"
      text := answer
      referenceCases := if referenceCases.isEmpty then none else some referenceCases }
  runEffects
    { s with messages := s.messages.map (fun m => if m.id = loadingId then finalMsg else m)
             nextId := s.nextId + 1
             isTyping := true
             isSending := false }

/-- The failure continuation of `send` (`catch` then `finally`): replaces
the placeholder with the fixed failure string, does not start the typing
animation (`setIsTyping(false)`), and clears the in-flight flag. -/
def resolveFailure (s : AppState) (loadingId : String) : AppState :=
  let failMsg : Message :=
    { id := mkUuid s.nextId, role := "assistant", text := failureText }
  runEffects
    { s with messages := s.messages.map (fun m => if m.id = loadingId then failMsg else m)
             nextId := s.nextId + 1
             isTyping := false
             isSending := false }

/-- A complete `send` whose request succeeds, with no other event
interleaved between the request and its resolution. -/
def sendSuccess (s : AppState) (text answer : String) (rawContext : List Json) : AppState :=
  if s.isSending || s.isTyping then s
  else resolveSuccess (sendStart s text).1 (mkLoadingId (s.nextId + 1)) answer rawContext

/-- A complete `send` whose request fails, with no other event interleaved
between the request and its resolution. -/
def sendFailure (s : AppState) (text : String) : AppState :=
  if s.isSending || s.isTyping then s
  else resolveFailure (sendStart s text).1 (mkLoadingId (s.nextId + 1))

/-- The history index restored by the init effect, on the stores the page
itself produces (`JSON.parse` of the stored index, or `[]` when absent). -/
def decodeHistory (st : Store) : List HistoryItem :=
  match st historyKey with
  | some (.hist l) => l
  | _ => []

/-- Mounting the page over an existing store: the init effect runs
`startNewSession()` and restores the history index, after which the
triggered effects persist the fresh session's transcript (the title effect
skips — the welcome log has no user message). -/
def bootOn (st : Store) (n : Nat) : AppState :=
  runEffects
    { messages := [welcomeMessage]
      history := decodeHistory st
      sessionId := mkUuid n
      isSending := false
      isTyping := false
      store := st
      nextId := n + 1 }

/-- The events the page can process. The two `resolve` events carry an
arbitrary placeholder id: this over-approximates the real behaviour, where
a resolution's `loadingId` was captured by an earlier `sendStart` — every
interleaving of handlers with late-arriving responses is a trace of this
system. -/
inductive Event where
  | startNew : Event
  | loadSession (id : String) : Event
  | deleteSession (id : String) : Event
  | sendReq (text : String) : Event
  | resolveOk (loadingId answer : String) (rawContext : List Json) : Event
  | resolveErr (loadingId : String) : Event
  | typingDone : Event
  | reload : Event

/-- One step of the chat page. `typingDone` is the `onLastTypingDone`
callback (`setIsTyping(false)`, no effect re-run); `reload` re-mounts the
page over the current store. -/
def step (s : AppState) : Event → AppState
  | .startNew => startNewSession s
  | .loadSession id => loadHistory s id
  | .deleteSession id => deleteHistory s id
  | .sendReq text => (sendStart s text).1
  | .resolveOk lid ans ctx => resolveSuccess s lid ans ctx
  | .resolveErr lid => resolveFailure s lid
  | .typingDone => { s with isTyping := false }
  | .reload => bootOn s.store s.nextId

/-- The states the page can reach, starting from a first mount over an
empty store. -/
inductive Reachable : AppState → Prop where
  | boot : Reachable (bootOn emptyStore 0)
  | step (s : AppState) (e : Event) : Reachable s → Reachable (step s e)

/-- The state right after a first mount over an empty store (used to
instantiate the claim theorems on concrete inputs). -/
def demoBoot : AppState := bootOn emptyStore 0

/-- `demoBoot` with a request outstanding. -/
def demoSending : AppState := { demoBoot with isSending := true }

/-- A state whose single history entry belongs to the active session:
the mounted page after one failed send. -/
def demoWithHistory : AppState := sendFailure demoBoot "hi"

/-!
## Basic lemmas about keys, the store and the effects
-/

lemma setItem_self (st : Store) (k : String) (v : StoredVal) : setItem st k v k = some v := by
  simp [setItem]

lemma setItem_other (st : Store) (k : String) (v : StoredVal) (k' : String) (h : k' ≠ k) :
    setItem st k v k' = st k' := by
  simp [setItem, h]

lemma removeItem_self (st : Store) (k : String) : removeItem st k k = none := by
  simp [removeItem]

lemma removeItem_other (st : Store) (k k' : String) (h : k' ≠ k) :
    removeItem st k k' = st k' := by
  simp [removeItem, h]

lemma sessionKey_ne_historyKey (id : String) : sessionKey id ≠ historyKey := by
  intro h
  have h2 := congrArg String.data h
  rw [sessionKey, historyKey, String.data_append] at h2
  simp at h2

lemma sessionKey_injective : Function.Injective sessionKey := by
  intro a b h
  have h2 := congrArg String.data h
  rw [sessionKey, sessionKey, String.data_append, String.data_append] at h2
  exact String.ext (List.append_cancel_left h2)

lemma mkUuid_ne_empty (n : Nat) : mkUuid n ≠ "" := by
  intro h
  have h2 := congrArg String.data h
  rw [mkUuid, String.data_append] at h2
  simp at h2

lemma welcome_not_user : firstUser [welcomeMessage] = none := by
  simp [firstUser, welcomeMessage, List.find?]

lemma runEffects_messages (s : AppState) : (runEffects s).messages = s.messages := by
  unfold runEffects saveEffect titleEffect
  split <;> (try split) <;> rfl

lemma runEffects_sessionId (s : AppState) : (runEffects s).sessionId = s.sessionId := by
  unfold runEffects saveEffect titleEffect
  split <;> (try split) <;> rfl

lemma runEffects_isSending (s : AppState) : (runEffects s).isSending = s.isSending := by
  unfold runEffects saveEffect titleEffect
  split <;> (try split) <;> rfl

lemma runEffects_isTyping (s : AppState) : (runEffects s).isTyping = s.isTyping := by
  unfold runEffects saveEffect titleEffect
  split <;> (try split) <;> rfl

lemma runEffects_nextId (s : AppState) : (runEffects s).nextId = s.nextId := by
  unfold runEffects saveEffect titleEffect
  split <;> (try split) <;> rfl

/-- The effects either leave the history index alone or move the active
session's entry (with some derived title) to the front. -/
lemma runEffects_history (s : AppState) :
    (runEffects s).history = s.history ∨
    ∃ t, (runEffects s).history =
      { id := s.sessionId, title := t } :: s.history.filter (fun h => h.id != s.sessionId) := by
  unfold runEffects saveEffect titleEffect
  by_cases h : s.sessionId = ""
  · simp [h]
  · simp only [h, if_neg, ite_false]
    cases hfu : firstUser s.messages with
    | none => simp
    | some m => exact Or.inr ⟨deriveTitle m.text, rfl⟩

/-- When the log has no user message the title effect is skipped and the
history index is unchanged. -/
lemma runEffects_history_of_noUser (s : AppState) (h : firstUser s.messages = none) :
    (runEffects s).history = s.history := by
  unfold runEffects saveEffect titleEffect
  by_cases hs : s.sessionId = ""
  · simp [hs]
  · simp only [hs, ite_false]
    simp [h]

lemma saveEffect_messages (s : AppState) : (saveEffect s).messages = s.messages := by
  unfold saveEffect; split <;> rfl

lemma saveEffect_sessionId (s : AppState) : (saveEffect s).sessionId = s.sessionId := by
  unfold saveEffect; split <;> rfl

lemma saveEffect_history (s : AppState) : (saveEffect s).history = s.history := by
  unfold saveEffect; split <;> rfl

/-!
## The reachability invariant

On every state the page reaches: the active session id is non-empty, the
log is non-empty, the stored history index mirrors the in-memory one, and
every index entry has a non-empty session id and a non-empty persisted
transcript. The key `"session-"` (empty session id) is never populated.
-/

/-- The state invariant maintained by every event of the chat page. -/
structure StateInv (s : AppState) : Prop where
  sid_ne : s.sessionId ≠ ""
  msgs_ne : s.messages ≠ []
  hist_stored : s.store historyKey = some (.hist s.history) ∨
    (s.store historyKey = none ∧ s.history = [])
  histOk : ∀ h ∈ s.history, h.id ≠ "" ∧
    ∃ l, s.store (sessionKey h.id) = some (.msgs l) ∧ l ≠ []
  noEmptyKey : s.store (sessionKey "") = none

lemma saveEffect_inv (s : AppState) (hs : StateInv s) :
    StateInv (saveEffect s) ∧
    (saveEffect s).store (sessionKey s.sessionId) = some (.msgs s.messages) := by
  obtain ⟨h1, h2, h3, h4, h6⟩ := hs
  unfold saveEffect
  rw [if_neg h1]
  refine ⟨⟨h1, h2, ?_, ?_, ?_⟩, ?_⟩
  · dsimp only
    rw [setItem_other _ _ _ _ (Ne.symm (sessionKey_ne_historyKey _))]
    exact h3
  · intro h hm
    dsimp only at hm ⊢
    obtain ⟨hid, l, hl, hlne⟩ := h4 h hm
    refine ⟨hid, ?_⟩
    by_cases hc : h.id = s.sessionId
    · rw [hc, setItem_self]
      exact ⟨s.messages, rfl, h2⟩
    · rw [setItem_other _ _ _ _ (fun he => hc (sessionKey_injective he))]
      exact ⟨l, hl, hlne⟩
  · dsimp only
    rw [setItem_other _ _ _ _ (fun he => h1 (sessionKey_injective he).symm)]
    exact h6
  · dsimp only
    exact setItem_self _ _ _

lemma titleEffect_inv (s : AppState) (hs : StateInv s)
    (hsave : s.store (sessionKey s.sessionId) = some (.msgs s.messages)) :
    StateInv (titleEffect s) := by
  obtain ⟨h1, h2, h3, h4, h6⟩ := hs
  unfold titleEffect
  rw [if_neg h1]
  cases hfu : firstUser s.messages with
  | none => exact ⟨h1, h2, h3, h4, h6⟩
  | some m =>
      refine ⟨h1, h2, ?_, ?_, ?_⟩
      · dsimp only
        exact Or.inl (setItem_self _ _ _)
      · intro h hm
        dsimp only at hm ⊢
        rcases List.mem_cons.mp hm with hcur | hoth
        · subst hcur
          refine ⟨h1, s.messages, ?_, h2⟩
          rw [setItem_other _ _ _ _ (sessionKey_ne_historyKey _)]
          exact hsave
        · obtain ⟨hid, l, hl, hlne⟩ := h4 h (List.mem_of_mem_filter hoth)
          refine ⟨hid, l, ?_, hlne⟩
          rw [setItem_other _ _ _ _ (sessionKey_ne_historyKey _)]
          exact hl
      · dsimp only
        rw [setItem_other _ _ _ _ (sessionKey_ne_historyKey _)]
        exact h6

lemma runEffects_inv (s : AppState) (hs : StateInv s) : StateInv (runEffects s) := by
  obtain ⟨hinv, hsave⟩ := saveEffect_inv s hs
  unfold runEffects
  refine titleEffect_inv _ hinv ?_
  rw [saveEffect_sessionId, saveEffect_messages]
  exact hsave

lemma startNewSession_inv (s : AppState) (hs : StateInv s) : StateInv (startNewSession s) := by
  refine runEffects_inv _ ⟨mkUuid_ne_empty _, ?_, hs.hist_stored, hs.histOk, hs.noEmptyKey⟩
  simp

lemma loadHistory_inv (s : AppState) (id : String) (hs : StateInv s) :
    StateInv (loadHistory s id) := by
  unfold loadHistory
  dsimp only
  split
  · exact hs
  · rename_i hne
    refine runEffects_inv _ ⟨?_, ?_, hs.hist_stored, hs.histOk, hs.noEmptyKey⟩
    · intro hid
      subst hid
      rw [show getTranscript s.store "" = [] from by
            unfold getTranscript; rw [hs.noEmptyKey]] at hne
      simp at hne
    · intro hmsgs
      dsimp only at hmsgs
      rw [hmsgs] at hne
      simp at hne

lemma resolveSuccess_inv (s : AppState) (lid ans : String) (ctx : List Json)
    (hs : StateInv s) : StateInv (resolveSuccess s lid ans ctx) := by
  refine runEffects_inv _ ⟨hs.sid_ne, ?_, hs.hist_stored, hs.histOk, hs.noEmptyKey⟩
  simp [hs.msgs_ne]

lemma resolveFailure_inv (s : AppState) (lid : String) (hs : StateInv s) :
    StateInv (resolveFailure s lid) := by
  refine runEffects_inv _ ⟨hs.sid_ne, ?_, hs.hist_stored, hs.histOk, hs.noEmptyKey⟩
  simp [hs.msgs_ne]

lemma sendStart_inv (s : AppState) (text : String) (hs : StateInv s) :
    StateInv (sendStart s text).1 := by
  unfold sendStart
  split
  · exact hs
  · exact runEffects_inv _ ⟨hs.sid_ne, by simp, hs.hist_stored, hs.histOk, hs.noEmptyKey⟩

lemma deleteHistory_inv (s : AppState) (id : String) (hs : StateInv s) :
    StateInv (deleteHistory s id) := by
  have hs1 : StateInv
      { s with history := s.history.filter (fun h => h.id != id)
               store := removeItem (setItem s.store historyKey
                 (.hist (s.history.filter (fun h => h.id != id)))) (sessionKey id) } := by
    refine ⟨hs.sid_ne, hs.msgs_ne, ?_, ?_, ?_⟩
    · dsimp only
      rw [removeItem_other _ _ _ (Ne.symm (sessionKey_ne_historyKey _)), setItem_self]
      exact Or.inl rfl
    · intro h hm
      dsimp only at hm ⊢
      obtain ⟨hmem, hpne⟩ := List.mem_filter.mp hm
      have hne : h.id ≠ id := by simpa using hpne
      obtain ⟨hid, l, hl, hlne⟩ := hs.histOk h hmem
      refine ⟨hid, l, ?_, hlne⟩
      rw [removeItem_other _ _ _ (fun he => hne (sessionKey_injective he)),
          setItem_other _ _ _ _ (sessionKey_ne_historyKey _)]
      exact hl
    · dsimp only
      by_cases hc : id = ""
      · subst hc
        rw [removeItem_self]
      · rw [removeItem_other _ _ _ (fun he => hc (sessionKey_injective he).symm),
            setItem_other _ _ _ _ (sessionKey_ne_historyKey _)]
        exact hs.noEmptyKey
  unfold deleteHistory
  dsimp only
  split
  · split
    · exact loadHistory_inv _ _ hs1
    · exact startNewSession_inv _ hs1
  · exact hs1

lemma bootOn_inv (st : Store) (n : Nat)
    (h3 : st historyKey = some (.hist (decodeHistory st)) ∨
      (st historyKey = none ∧ decodeHistory st = []))
    (h4 : ∀ h ∈ decodeHistory st, h.id ≠ "" ∧
      ∃ l, st (sessionKey h.id) = some (.msgs l) ∧ l ≠ [])
    (h6 : st (sessionKey "") = none) :
    StateInv (bootOn st n) := by
  refine runEffects_inv _ ⟨mkUuid_ne_empty _, by simp, h3, h4, h6⟩

lemma step_inv (s : AppState) (e : Event) (hs : StateInv s) : StateInv (step s e) := by
  cases e with
  | startNew => exact startNewSession_inv s hs
  | loadSession id => exact loadHistory_inv s id hs
  | deleteSession id => exact deleteHistory_inv s id hs
  | sendReq text => exact sendStart_inv s text hs
  | resolveOk lid ans ctx => exact resolveSuccess_inv s lid ans ctx hs
  | resolveErr lid => exact resolveFailure_inv s lid hs
  | typingDone => exact ⟨hs.sid_ne, hs.msgs_ne, hs.hist_stored, hs.histOk, hs.noEmptyKey⟩
  | reload =>
      refine bootOn_inv s.store s.nextId ?_ ?_ hs.noEmptyKey
      · rcases hs.hist_stored with hsh | ⟨hsh, _⟩
        · left
          rw [hsh]
          unfold decodeHistory
          rw [hsh]
        · right
          refine ⟨hsh, ?_⟩
          unfold decodeHistory
          rw [hsh]
      · intro h hm
        rcases hs.hist_stored with hsh | ⟨hsh, hhe⟩
        · refine hs.histOk h ?_
          unfold decodeHistory at hm
          rw [hsh] at hm
          exact hm
        · unfold decodeHistory at hm
          rw [hsh] at hm
          simp at hm

/-- Every reachable state satisfies the invariant. -/
lemma reachable_inv (s : AppState) (h : Reachable s) : StateInv s := by
  induction h with
  | boot =>
      refine bootOn_inv emptyStore 0 ?_ ?_ rfl
      · exact Or.inr ⟨rfl, rfl⟩
      · intro h hm
        simp [decodeHistory, emptyStore] at hm
  | step s e _ ih => exact step_inv s e ih

/-!
## Unfolding lemmas for the send pipeline
-/

lemma getLast?_append_pair {α : Type} (l : List α) (a b : α) :
    (l ++ [a, b]).getLast? = some b := by
  rw [show l ++ [a, b] = (l ++ [a]) ++ [b] by simp]
  exact List.getLast?_concat _

lemma sendStart_accepted_messages (s : AppState) (t : String)
    (hg : (s.isSending || s.isTyping) = false) :
    (sendStart s t).1.messages = s.messages ++
      [{ id := mkUuid s.nextId, role := "user", text := t },
       { id := mkLoadingId (s.nextId + 1), role := "assistant", text := "", loading := true }] := by
  unfold sendStart
  rw [hg, if_neg Bool.false_ne_true]
  dsimp only
  rw [runEffects_messages]

lemma sendStart_accepted_nextId (s : AppState) (t : String)
    (hg : (s.isSending || s.isTyping) = false) :
    (sendStart s t).1.nextId = s.nextId + 2 := by
  unfold sendStart
  rw [hg, if_neg Bool.false_ne_true]
  dsimp only
  rw [runEffects_nextId]

lemma sendStart_accepted_sessionId (s : AppState) (t : String)
    (hg : (s.isSending || s.isTyping) = false) :
    (sendStart s t).1.sessionId = s.sessionId := by
  unfold sendStart
  rw [hg, if_neg Bool.false_ne_true]
  dsimp only
  rw [runEffects_sessionId]

lemma resolveFailure_messages (s : AppState) (lid : String) :
    (resolveFailure s lid).messages = s.messages.map
      (fun m => if m.id = lid
        then { id := mkUuid s.nextId, role := "assistant", text := failureText }
        else m) := by
  unfold resolveFailure
  rw [runEffects_messages]

lemma resolveFailure_flags (s : AppState) (lid : String) :
    (resolveFailure s lid).isSending = false ∧ (resolveFailure s lid).isTyping = false := by
  unfold resolveFailure
  rw [runEffects_isSending, runEffects_isTyping]
  exact ⟨rfl, rfl⟩

lemma resolveSuccess_messages (s : AppState) (lid ans : String) (ctx : List Json) :
    (resolveSuccess s lid ans ctx).messages = s.messages.map
      (fun m => if m.id = lid
        then { id := mkUuid s.nextId, role := "assistant", text := ans,
               referenceCases := if (buildRefCases 0 ctx).isEmpty then none
                 else some (buildRefCases 0 ctx) }
        else m) := by
  unfold resolveSuccess
  rw [runEffects_messages]

/-!
## The claims
-/

/-- C1: a `send(text)` issued while `sending=true` or `typing=true` is a
rejected no-op — the whole state (message log, history index, session id,
flags, store, id counter) is unchanged and no request is issued — and a
send issued in the Idle state is accepted (a request carrying the question
is posted). -/
theorem claim_C1 (s : AppState) (t : String) :
    (s.isSending = true ∨ s.isTyping = true → sendStart s t = (s, none)) ∧
    (s.isSending = false → s.isTyping = false → (sendStart s t).2 = some t) := by
  constructor
  · intro h
    unfold sendStart
    have hg : (s.isSending || s.isTyping) = true := by
      rcases h with h | h <;> simp [h]
    rw [hg]
    simp
  · intro h1 h2
    unfold sendStart
    rw [h1, h2]
    simp

/-- C1 witness: at the mounted state with `sending=true` the call is a
no-op issuing no request; at the idle mounted state the request is
issued. -/
theorem claim_C1_witness :
    sendStart demoSending "hello" = (demoSending, none) ∧
    (sendStart demoBoot "hello").2 = some "hello" :=
  ⟨(claim_C1 demoSending "hello").1 (Or.inl rfl),
   (claim_C1 demoBoot "hello").2 rfl rfl⟩

/-- C2 counterexample: the claim says malformed stored data is treated as
empty, but `JSON.parse` on a stored string that is not valid JSON throws —
the load crashes the caller instead of yielding an empty sequence. -/
theorem claim_C2_counterexample :
    loadHistoryIndex (some RawStored.bad) = Except.error () := rfl

/-- C2 (amended): an absent history key or an empty stored string loads as
the empty array, and a stored string that is valid JSON loads as its
parsed value; but a stored string that is not valid JSON makes the load
throw (`JSON.parse` is not guarded), rather than being treated as empty. -/
theorem claim_C2 :
    loadHistoryIndex none = Except.ok (Json.arr []) ∧
    loadHistoryIndex (some RawStored.empty) = Except.ok (Json.arr []) ∧
    (∀ v : Json, loadHistoryIndex (some (RawStored.json v)) = Except.ok v) ∧
    loadHistoryIndex (some RawStored.bad) = Except.error () :=
  ⟨rfl, rfl, fun _ => rfl, rfl⟩

/-- C4: a `send` issued in the Idle state whose request fails leaves the
trailing assistant message equal to the fixed failure string (the loading
placeholder is replaced), clears the in-flight flag, and does not trigger
the typing animation. -/
theorem claim_C4 (s : AppState) (t : String)
    (hsnd : s.isSending = false) (htyp : s.isTyping = false) :
    ((sendFailure s t).messages.getLast?.map (fun m => (m.role, m.text))) =
      some ("assistant", failureText) ∧
    (sendFailure s t).isSending = false ∧
    (sendFailure s t).isTyping = false := by
  have hg : (s.isSending || s.isTyping) = false := by rw [hsnd, htyp]; rfl
  unfold sendFailure
  rw [hg, if_neg Bool.false_ne_true]
  refine ⟨?_, (resolveFailure_flags _ _).1, (resolveFailure_flags _ _).2⟩
  rw [resolveFailure_messages, sendStart_accepted_messages s t hg, List.map_append]
  simp only [List.map_cons, List.map_nil]
  rw [getLast?_append_pair]
  simp

/-- C4 witness: a failed send from the freshly mounted (idle) state. -/
theorem claim_C4_witness :
    ((sendFailure demoBoot "q").messages.getLast?.map (fun m => (m.role, m.text))) =
      some ("assistant", failureText) ∧
    (sendFailure demoBoot "q").isSending = false ∧
    (sendFailure demoBoot "q").isTyping = false :=
  claim_C4 demoBoot "q" rfl rfl

/-- C9: the pre-commit hook exits 0 for every analyzer exit status — a
non-zero analyzer status only switches the printed message, never the
hook's exit code, so the commit is never blocked. -/
theorem claim_C9 (analyzerExit : Nat) :
    (preCommitHook analyzerExit).2 = 0 ∧
    (analyzerExit ≠ 0 → (preCommitHook analyzerExit).1 = hookHeader ++ hookFailureLines) ∧
    (analyzerExit = 0 → (preCommitHook analyzerExit).1 = hookHeader ++ hookSuccessLines) := by
  refine ⟨rfl, ?_, ?_⟩
  · intro h
    simp [preCommitHook, h]
  · intro h
    simp [preCommitHook, h]

/-- C9 witness: a failing analyzer run (exit status 3) still exits 0 and
prints the failure banner. -/
theorem claim_C9_witness :
    (preCommitHook 3).2 = 0 ∧ (preCommitHook 3).1 = hookHeader ++ hookFailureLines :=
  ⟨(claim_C9 3).1, (claim_C9 3).2.1 (by decide)⟩

lemma titleEffect_history_of_user (s : AppState) (hsid : s.sessionId ≠ "") (m : Message)
    (hfu : firstUser s.messages = some m) :
    (titleEffect s).history =
      { id := s.sessionId, title := deriveTitle m.text } ::
        s.history.filter (fun h => h.id != s.sessionId) := by
  unfold titleEffect
  rw [if_neg hsid, hfu]

lemma runEffects_history_of_user (s : AppState) (hsid : s.sessionId ≠ "") (m : Message)
    (hfu : firstUser s.messages = some m) :
    (runEffects s).history =
      { id := s.sessionId, title := deriveTitle m.text } ::
        s.history.filter (fun h => h.id != s.sessionId) := by
  unfold runEffects
  rw [titleEffect_history_of_user (saveEffect s)
        (by rw [saveEffect_sessionId]; exact hsid) m
        (by rw [saveEffect_messages]; exact hfu),
      saveEffect_sessionId, saveEffect_history]

lemma firstUser_append_user (ms : List Message) (hfu : firstUser ms = none)
    (u ld : Message) (hu : u.role = "user") :
    firstUser (ms ++ [u, ld]) = some u := by
  unfold firstUser at *
  rw [List.find?_append, hfu, Option.none_or]
  simp [List.find?, hu]

/-- C5: after an accepted first send of `t`, the derived history title is
the first 12 characters of `t` followed by `"..."` when `t` is longer than
12 characters, and `t` itself otherwise; in particular
`"What should I eat"` is titled `"What should ..."` and `"Hi"` stays
`"Hi"`. -/
theorem claim_C5 (s : AppState) (t : String)
    (hsnd : s.isSending = false) (htyp : s.isTyping = false)
    (hsid : s.sessionId ≠ "") (hfu : firstUser s.messages = none) :
    (((sendStart s t).1.history.head?).map HistoryItem.title) =
      some (if t.length > 12 then t.take 12 ++ "..." else t) ∧
    deriveTitle "What should I eat" = "What should ..." ∧
    deriveTitle "Hi" = "Hi" := by
  refine ⟨?_, by decide, by decide⟩
  have hg : (s.isSending || s.isTyping) = false := by rw [hsnd, htyp]; rfl
  unfold sendStart
  rw [hg, if_neg Bool.false_ne_true]
  dsimp only
  have hrw := runEffects_history_of_user
    { messages := s.messages ++
        [{ id := mkUuid s.nextId, role := "user", text := t },
         { id := mkLoadingId (s.nextId + 1), role := "assistant", text := "", loading := true }]
      history := s.history
      sessionId := s.sessionId
      isSending := true
      isTyping := s.isTyping
      store := s.store
      nextId := s.nextId + 2 }
    hsid
    { id := mkUuid s.nextId, role := "user", text := t }
    (firstUser_append_user s.messages hfu _ _ rfl)
  rw [hrw]
  rfl

/-- C5 witness: sending `"What should I eat"` as the first message of the
freshly mounted session titles the history entry `"What should ..."`. -/
theorem claim_C5_witness :
    (((sendStart demoBoot "What should I eat").1.history.head?).map HistoryItem.title) =
      some "What should ..." :=
  (claim_C5 demoBoot "What should I eat" rfl rfl (by decide) rfl).1

lemma buildRefCases_id_get (l : List Json) : ∀ (start i : Nat)
    (hi : i < (buildRefCases start l).length),
    ((buildRefCases start l).get ⟨i, hi⟩).id = start + i + 1 := by
  induction l with
  | nil =>
      intro start i hi
      simp [buildRefCases] at hi
  | cons c cs ih =>
      intro start i hi
      cases i with
      | zero => rfl
      | succ n =>
          have hn : n < (buildRefCases (start + 1) cs).length := by
            simpa [buildRefCases] using hi
          have := ih (start + 1) n hn
          simpa [buildRefCases, Nat.add_assoc, Nat.add_comm, Nat.add_left_comm] using this

/-- C6: a 2xx response body without a `context` field, or whose `context`
is not an array, makes `askQuestion` return an empty context list rather
than fail; and the reference cases derived from a context list are
numbered by their 1-based position. -/
theorem claim_C6 (respData : Json)
    (hctx : ∀ xs, jsonGet respData "context" ≠ some (Json.arr xs)) :
    (askQuestion respData).context = [] ∧
    ∀ (l : List Json) (i : Nat) (hi : i < (buildRefCases 0 l).length),
      ((buildRefCases 0 l).get ⟨i, hi⟩).id = i + 1 := by
  constructor
  · unfold askQuestion jsOr jsArrayOrEmpty
    dsimp only
    by_cases ht : jsTruthy respData
    · rw [if_pos ht]
      cases hc : jsonGet respData "context" with
      | none => rfl
      | some v =>
          cases v with
          | arr xs => exact absurd hc (hctx xs)
          | null => rfl
          | bool b => rfl
          | num n => rfl
          | str s => rfl
          | obj fields => rfl
    · rw [if_neg ht]
      rfl
  · intro l i hi
    have := buildRefCases_id_get l 0 i hi
    simpa using this

/-- A concrete 2xx response body carrying only an `answer` field. -/
def demoAnswerOnly : Json := Json.obj [("answer", Json.str "ok")]

/-- C6 witness: a response without `context` yields an empty reference-case
list, and the second case built from a two-element context list has id 2. -/
theorem claim_C6_witness :
    (askQuestion demoAnswerOnly).context = [] ∧
    ((buildRefCases 0 [demoAnswerOnly, demoAnswerOnly]).get ⟨1, by decide⟩).id = 2 :=
  ⟨(claim_C6 demoAnswerOnly (fun xs h => by simp [demoAnswerOnly, jsonGet, List.find?] at h)).1,
   (claim_C6 demoAnswerOnly (fun xs h => by simp [demoAnswerOnly, jsonGet, List.find?] at h)).2
     [demoAnswerOnly, demoAnswerOnly] 1 (by decide)⟩

/-- C10: the assistant message resolving a successful send carries
`referenceCases` only when at least one reference case was derived; an
empty context list leaves the field absent (`none`), not an empty
sequence. -/
theorem claim_C10 (s : AppState) (t ans : String) (rawCtx : List Json)
    (hsnd : s.isSending = false) (htyp : s.isTyping = false) :
    ∃ m, (sendSuccess s t ans rawCtx).messages.getLast? = some m ∧
      (rawCtx = [] → m.referenceCases = none) ∧
      (∀ l, m.referenceCases = some l → l ≠ []) := by
  have hg : (s.isSending || s.isTyping) = false := by rw [hsnd, htyp]; rfl
  unfold sendSuccess
  rw [hg, if_neg Bool.false_ne_true]
  rw [resolveSuccess_messages, sendStart_accepted_messages s t hg, List.map_append]
  simp only [List.map_cons, List.map_nil]
  rw [getLast?_append_pair]
  refine ⟨_, rfl, ?_, ?_⟩
  · intro h
    subst h
    simp [buildRefCases]
  · intro l hl
    rw [if_pos trivial] at hl
    dsimp only at hl
    split at hl
    · exact absurd hl (by simp)
    · rename_i hemp
      obtain rfl := Option.some.inj hl
      exact List.isEmpty_eq_false.mp (by simpa using hemp)

/-- C10 witness: a successful send with an empty context list resolves to
a trailing assistant message with no `referenceCases` field. -/
theorem claim_C10_witness :
    ((sendSuccess demoBoot "q" "a" []).messages.getLast?).bind Message.referenceCases = none := by
  obtain ⟨m, hm, h1, _⟩ := claim_C10 demoBoot "q" "a" [] rfl rfl
  rw [hm]
  simpa using h1 rfl

/-- C7: deleting the active session while it is the only history entry
yields a fresh idle session whose log is exactly the seeded assistant
welcome message and whose history index is empty. -/
theorem claim_C7 (s : AppState) (e : HistoryItem)
    (hh : s.history = [e]) (ha : e.id = s.sessionId) :
    (deleteHistory s s.sessionId).messages = [welcomeMessage] ∧
    welcomeMessage.role = "assistant" ∧
    (deleteHistory s s.sessionId).isSending = false ∧
    (deleteHistory s s.sessionId).isTyping = false ∧
    (deleteHistory s s.sessionId).history = [] := by
  have hupd : s.history.filter (fun h => h.id != s.sessionId) = [] := by
    rw [hh]
    simp [ha]
  unfold deleteHistory
  rw [if_pos rfl, hupd]
  dsimp only
  unfold startNewSession
  refine ⟨?_, rfl, ?_, ?_, ?_⟩
  · rw [runEffects_messages]
  · rw [runEffects_isSending]
  · rw [runEffects_isTyping]
  · rw [runEffects_history_of_noUser _ (by dsimp only; exact welcome_not_user)]

/-- C7 witness: deleting the only (active) session of the one-session demo
state resets to the welcome log with an empty history index. -/
theorem claim_C7_witness :
    (deleteHistory demoWithHistory demoWithHistory.sessionId).messages = [welcomeMessage] ∧
    (deleteHistory demoWithHistory demoWithHistory.sessionId).history = [] := by
  have h := claim_C7 demoWithHistory { id := "uuid-0", title := "hi" } (by rfl) (by rfl)
  exact ⟨h.1, h.2.2.2.2⟩

/-- C8: deleting a non-active session's entry leaves the active session's
id, log and both flags unchanged; the history index loses exactly the
deleted entry, the deleted transcript key is cleared, and every store key
other than the history key and the deleted transcript key is untouched. -/
theorem claim_C8 (s : AppState) (id : String) (h : id ≠ s.sessionId) :
    (deleteHistory s id).sessionId = s.sessionId ∧
    (deleteHistory s id).messages = s.messages ∧
    (deleteHistory s id).isSending = s.isSending ∧
    (deleteHistory s id).isTyping = s.isTyping ∧
    (deleteHistory s id).history = s.history.filter (fun x => x.id != id) ∧
    (deleteHistory s id).store (sessionKey id) = none ∧
    ∀ k, k ≠ historyKey → k ≠ sessionKey id → (deleteHistory s id).store k = s.store k := by
  unfold deleteHistory
  rw [if_neg h]
  refine ⟨rfl, rfl, rfl, rfl, rfl, ?_, ?_⟩
  · dsimp only
    rw [removeItem_self]
  · intro k hk1 hk2
    dsimp only
    rw [removeItem_other _ _ _ hk2, setItem_other _ _ _ _ hk1]

/-- C8 witness: deleting the entry of a session other than the active one
in the one-session demo state changes neither the active id and log nor
the active session's stored transcript. -/
theorem claim_C8_witness :
    (deleteHistory demoWithHistory "stale").sessionId = demoWithHistory.sessionId ∧
    (deleteHistory demoWithHistory "stale").messages = demoWithHistory.messages ∧
    (deleteHistory demoWithHistory "stale").store (sessionKey "uuid-0") =
      demoWithHistory.store (sessionKey "uuid-0") := by
  have h := claim_C8 demoWithHistory "stale" (by decide)
  exact ⟨h.1, h.2.1, h.2.2.2.2.2.2 (sessionKey "uuid-0") (by decide) (by decide)⟩

/-- C3: deleting the active session from any reachable state falls back to
the most-recent remaining history entry's session when one remains, and to
a freshly created session (welcome log, fresh id) otherwise; afterwards,
whenever the history index is non-empty the active session id has a
corresponding history entry. -/
theorem claim_C3 (s : AppState) (hr : Reachable s) :
    (match s.history.filter (fun h => h.id != s.sessionId) with
     | e :: _ => (deleteHistory s s.sessionId).sessionId = e.id
     | [] => (deleteHistory s s.sessionId).sessionId = mkUuid s.nextId ∧
         (deleteHistory s s.sessionId).messages = [welcomeMessage]) ∧
    ((deleteHistory s s.sessionId).history ≠ [] →
      ∃ e ∈ (deleteHistory s s.sessionId).history,
        e.id = (deleteHistory s s.sessionId).sessionId) := by
  have hs := reachable_inv s hr
  unfold deleteHistory
  rw [if_pos rfl]
  cases hcase : s.history.filter (fun h => h.id != s.sessionId) with
  | nil =>
      dsimp only
      refine ⟨⟨?_, ?_⟩, ?_⟩
      · unfold startNewSession
        rw [runEffects_sessionId]
      · unfold startNewSession
        rw [runEffects_messages]
      · intro habs
        exfalso
        apply habs
        unfold startNewSession
        rw [runEffects_history_of_noUser _ (by dsimp only; exact welcome_not_user)]
  | cons e rest =>
      dsimp only
      have hmem : e ∈ s.history.filter (fun h => h.id != s.sessionId) := by
        rw [hcase]
        exact List.mem_cons_self _ _
      obtain ⟨hmem', hbne⟩ := List.mem_filter.mp hmem
      have hene : e.id ≠ s.sessionId := by simpa using hbne
      obtain ⟨_, l, hl, hlne⟩ := hs.histOk e hmem'
      have htr : getTranscript
          (removeItem (setItem s.store historyKey (StoredVal.hist (e :: rest)))
            (sessionKey s.sessionId)) e.id = l := by
        unfold getTranscript
        rw [removeItem_other _ _ _ (fun he => hene (sessionKey_injective he)),
            setItem_other _ _ _ _ (sessionKey_ne_historyKey _), hl]
      have hemp : l.isEmpty = false := List.isEmpty_eq_false.mpr hlne
      unfold loadHistory
      dsimp only
      rw [htr, hemp, if_neg Bool.false_ne_true]
      refine ⟨?_, ?_⟩
      · rw [runEffects_sessionId]
      · intro _
        rcases runEffects_history
            { messages := l
              history := e :: rest
              sessionId := e.id
              isSending := false
              isTyping := false
              store := removeItem (setItem s.store historyKey (StoredVal.hist (e :: rest)))
                (sessionKey s.sessionId)
              nextId := s.nextId } with hh | ⟨tt, hh⟩
        · rw [hh, runEffects_sessionId]
          exact ⟨e, List.mem_cons_self _ _, rfl⟩
        · rw [hh, runEffects_sessionId]
          exact ⟨_, List.mem_cons_self _ _, rfl⟩

/-- C3 witness: deleting the active session at the freshly mounted state
(no other entries) creates a fresh session seeded with the welcome log. -/
theorem claim_C3_witness :
    (deleteHistory demoBoot demoBoot.sessionId).sessionId = mkUuid demoBoot.nextId ∧
    (deleteHistory demoBoot demoBoot.sessionId).messages = [welcomeMessage] :=
  (claim_C3 demoBoot Reachable.boot).1
